import Mathlib

/-!
# Verification of `in_n_out._processors`

A shallow embedding of the processor registry module of the `in-n-out`
repository (`src/in_n_out/_processors.py`).

The module keeps a process-wide insertion-ordered dictionary `_PROCESSORS`
mapping a "type key" to a processor function, and offers:

* `get_processor` — exact-match lookup, with a subtype scan over registered
  class keys as fallback;
* `set_processors` — a callable / context-manager class whose constructor
  checks collisions, snapshots prior bindings, and applies a batch of
  bindings, and whose `__exit__` restores the snapshot;
* `processor` — a decorator that registers a function under the type of its
  first annotated parameter.

We model the Python dict as an insertion-ordered association list, Python
values usable as keys by an explicit inductive type (classes with their
method-resolution order, hashable non-class objects, `None`, and — for
lookup queries only — unhashable values), and exceptions by `Except` whose
error value carries the registry as left behind by the raising call.
-/

namespace InNOut

/-- A Python class, identified by an id, together with the ids of the
classes in its method resolution order; `issubclass a b` is modelled as
membership of `b`'s id in `a`'s mro (a coherent class lists itself). -/
structure PyType where
  id : Nat
  mro : List Nat
deriving DecidableEq, Repr

/-- `issubclass(a, b)` for two classes. -/
def issubclass (a b : PyType) : Bool :=
  b.id ∈ a.mro

/-- A hashable Python value that can be used as a dict key (and hence as a
registry key): a class, a non-class hashable object (a sentinel, an int,
a parameterized generic, ...), or `None`. -/
inductive PKey where
  | ty (t : PyType)
  | obj (n : Nat)
  | pynone
deriving DecidableEq, Repr

/-- `isinstance(k, type)` on a key. -/
def PKey.isClass : PKey → Bool
  | .ty _ => true
  | _ => false

/-- A value passed to `get_processor`: either a hashable value, or an
unhashable one (e.g. a list), on which `hash` raises `TypeError`. -/
inductive PQuery where
  | key (k : PKey)
  | unhashable (n : Nat)
deriving DecidableEq, Repr

/-- A Python function object: an id, and its resolved type hints as
returned by `get_type_hints` — an insertion-ordered dict from parameter
name (or `"return"`) to the annotation value, where `none` models the
Python value `None`. -/
structure PyFunc where
  id : Nat
  hints : List (String × Option PKey)
deriving DecidableEq, Repr

/-- The `_PROCESSORS` dict: an insertion-ordered map from key to processor
function. -/
abbrev Registry := List (PKey × PyFunc)

/-- Python exceptions raised by the module: `ValueError` (the collision
error, carrying the offending key, which the message names), `TypeError`
(hashing an unhashable value), `KeyError` (from `del`). -/
inductive PyErr where
  | valueError (k : PKey)
  | typeError
  | keyError (k : PKey)
deriving DecidableEq, Repr

/-- `d[k]` / `d.get(k)` on the registry dict: the value stored at `k`. -/
def lookupExact (reg : Registry) (k : PKey) : Option PyFunc :=
  match reg with
  | [] => none
  | (k', v) :: rest => if k' = k then some v else lookupExact rest k

/-- `k in d` on the registry dict. -/
def containsKey (reg : Registry) (k : PKey) : Bool :=
  (lookupExact reg k).isSome

/-- `d[k] = v` on the registry dict: an existing key keeps its position,
a new key is appended at the end. -/
def dictSet (reg : Registry) (k : PKey) (v : PyFunc) : Registry :=
  match reg with
  | [] => [(k, v)]
  | (k', v') :: rest =>
      if k' = k then (k, v) :: rest else (k', v') :: dictSet rest k v

/-- `del d[k]` on the registry dict, assuming the key is present. -/
def dictDel (reg : Registry) (k : PKey) : Registry :=
  match reg with
  | [] => []
  | (k', v') :: rest =>
      if k' = k then rest else (k', v') :: dictDel rest k

/-- `d.update(mapping)`: set each binding of `mapping` in iteration
order. -/
def dictUpdate (reg : Registry) (mapping : List (PKey × PyFunc)) : Registry :=
  mapping.foldl (fun r kv => dictSet r kv.1 kv.2) reg

/-! ## `get_processor` -/

/-- The subtype-scan loop of `get_processor`: iterate the registry in
storage order and return the value of the first key that is itself a class
and of which `t` is a subclass. -/
def subtypeScan (t : PyType) : Registry → Option PyFunc
  | [] => none
  | (k, v) :: rest =>
      match k with
      | .ty k' => if issubclass t k' then some v else subtypeScan t rest
      | _ => subtypeScan t rest

/-- `get_processor(type_)`.  The registry is threaded through explicitly
(the Python function reads the global `_PROCESSORS`); the returned registry
is the state of the global when the call finishes, on the error side as the
exception propagates.  An unhashable query makes the membership test
`type_ in _PROCESSORS` raise `TypeError`. -/
def get_processor (type_ : PQuery) (reg : Registry) :
    Except (PyErr × Registry) (Option PyFunc × Registry) :=
  match type_ with
  | .unhashable _ => .error (.typeError, reg)
  | .key k =>
      if containsKey reg k then
        .ok (lookupExact reg k, reg)
      else
        match k with
        | .ty t => .ok (subtypeScan t reg, reg)
        | _ => .ok (none, reg)

/-! ## `set_processors` -/

/-- The snapshot `self._before`: for each key of the mapping, in mapping
order, the previously bound processor, or `none` for the `_NULL` marker
("was absent"). -/
abbrev Snapshot := List (PKey × Option PyFunc)

/-- The loop of `set_processors.__init__`: for each key of the mapping in
order, raise `ValueError` if the key is registered and `clobber` is false,
else record the prior binding (`_PROCESSORS.get(k, _NULL)`).  The global
registry is not touched by this loop. -/
def checkAndSnapshot (reg : Registry) (clobber : Bool) :
    List (PKey × PyFunc) → Except PyErr Snapshot
  | [] => .ok []
  | (k, _) :: rest =>
      if containsKey reg k && !clobber then
        .error (.valueError k)
      else
        match checkAndSnapshot reg clobber rest with
        | .error e => .error e
        | .ok snap => .ok ((k, lookupExact reg k) :: snap)

/-- `set_processors.__init__(mapping, clobber)`: run the collision check
and snapshot loop over the whole mapping; only if it completes does
`_PROCESSORS.update(mapping)` run.  On an error the registry is returned
as the loop left it — unchanged. -/
def set_processors_init (mapping : List (PKey × PyFunc)) (clobber : Bool)
    (reg : Registry) : Except (PyErr × Registry) (Snapshot × Registry) :=
  match checkAndSnapshot reg clobber mapping with
  | .error e => .error (e, reg)
  | .ok snap => .ok (snap, dictUpdate reg mapping)

/-- One iteration of the `set_processors.__exit__` loop: a `_NULL`
snapshot entry deletes the key (`del` raises `KeyError` if it is absent),
any other entry restores the recorded processor. -/
def exitStep (reg : Registry) : PKey × Option PyFunc →
    Except (PyErr × Registry) Registry
  | (k, none) =>
      if containsKey reg k then .ok (dictDel reg k)
      else .error (.keyError k, reg)
  | (k, some v) => .ok (dictSet reg k v)

/-- `set_processors.__exit__`: iterate the snapshot in insertion order,
restoring each key. -/
def set_processors_exit (before : Snapshot) (reg : Registry) :
    Except (PyErr × Registry) Registry :=
  before.foldlM exitStep reg

/-! ## `processor` -/

/-- `hints.pop("return", None)`: the hints dict without its `"return"`
entry. -/
def popReturn (hints : List (String × Option PKey)) :
    List (String × Option PKey) :=
  hints.eraseP (fun kv => kv.1 == "return")

/-- The `processor` decorator.  Resolve the hints, drop the return
annotation; with no hints left, warn and return the function; otherwise
take the first annotation value and, unless it is the value `None`,
register `{hint0: func}` through `set_processors` with `clobber` false,
discarding the snapshot (permanent registration).  The result carries the
registry, the returned function object, and whether the warning was
emitted. -/
def processor (func : PyFunc) (reg : Registry) :
    Except (PyErr × Registry) (Registry × PyFunc × Bool) :=
  match popReturn func.hints with
  | [] => .ok (reg, func, true)
  | (_, hint0) :: _ =>
      match hint0 with
      | some k =>
          match set_processors_init [(k, func)] false reg with
          | .error e => .error e
          | .ok (_, reg') => .ok (reg', func, false)
      | none => .ok (reg, func, false)

/-! ## Spec-side lookup

The specification describes the lookup operation as a three-step
algorithm; `lookup_spec` transcribes those words (exact match, else — for a
class query — the first registered class key the query is a subclass of,
else absent), to be compared with `get_processor` as embedded from the
source. -/

/-- Modelled from the spec: `lookup(query_type)` as §4.3 words it —
exact match first; else, only when the query is a class, the processor of
the first registered key that is a class and has the query as a subclass;
else absent. -/
def lookup_spec (k : PKey) (reg : Registry) : Option PyFunc :=
  if containsKey reg k then
    lookupExact reg k
  else
    match k with
    | .ty t =>
        (reg.find? (fun kv => kv.1.isClass && match kv.1 with
          | .ty b => issubclass t b
          | _ => false)).map Prod.snd
    | _ => none

/-- Concrete processor functions (no hints) used in witnesses and
counterexamples. -/
def pf (n : Nat) : PyFunc := ⟨n, []⟩

/-- The first key of a mapping, in iteration order, that is already
registered. -/
def firstColliding (reg : Registry) (mapping : List (PKey × PyFunc)) :
    Option PKey :=
  (mapping.find? (fun kv => containsKey reg kv.1)).map Prod.fst

/-! ## Dictionary lemmas -/

theorem lookupExact_dictSet_self (reg : Registry) (k : PKey) (v : PyFunc) :
    lookupExact (dictSet reg k v) k = some v := by
  induction reg with
  | nil => simp [dictSet, lookupExact]
  | cons kv rest ih =>
      obtain ⟨k', v'⟩ := kv
      by_cases h : k' = k
      · simp [dictSet, h, lookupExact]
      · simp [dictSet, h, lookupExact, ih]

theorem lookupExact_dictSet_ne (reg : Registry) (k k' : PKey) (v : PyFunc)
    (h : k ≠ k') : lookupExact (dictSet reg k' v) k = lookupExact reg k := by
  induction reg with
  | nil => simp [dictSet, lookupExact, Ne.symm h]
  | cons kv rest ih =>
      obtain ⟨k0, v0⟩ := kv
      by_cases h0 : k0 = k'
      · subst h0
        simp [dictSet, lookupExact, Ne.symm h]
      · by_cases h1 : k0 = k
        · simp [dictSet, h0, lookupExact, h1, h]
        · simp [dictSet, h0, lookupExact, h1, ih]

theorem dictSet_lookup_eq (reg : Registry) (k : PKey) (v : PyFunc)
    (h : lookupExact reg k = some v) : dictSet reg k v = reg := by
  induction reg with
  | nil => simp [lookupExact] at h
  | cons kv rest ih =>
      obtain ⟨k0, v0⟩ := kv
      by_cases h0 : k0 = k
      · subst h0
        simp [lookupExact] at h
        simp [dictSet, h]
      · simp [lookupExact, h0] at h
        simp [dictSet, h0, ih h]

theorem lookupExact_none_of_not_contains (reg : Registry) (k : PKey)
    (h : containsKey reg k = false) : lookupExact reg k = none := by
  simpa [containsKey, Option.isSome_iff_exists] using h

theorem dictSet_absent (reg : Registry) (k : PKey) (v : PyFunc)
    (h : lookupExact reg k = none) : dictSet reg k v = reg ++ [(k, v)] := by
  induction reg with
  | nil => simp [dictSet]
  | cons kv rest ih =>
      obtain ⟨k0, v0⟩ := kv
      by_cases h0 : k0 = k
      · subst h0
        simp [lookupExact] at h
      · simp [lookupExact, h0] at h
        simp [dictSet, h0, ih h]

theorem dictDel_append_absent (reg : Registry) (k : PKey) (v : PyFunc)
    (h : lookupExact reg k = none) : dictDel (reg ++ [(k, v)]) k = reg := by
  induction reg with
  | nil => simp [dictDel]
  | cons kv rest ih =>
      obtain ⟨k0, v0⟩ := kv
      by_cases h0 : k0 = k
      · subst h0
        simp [lookupExact] at h
      · simp [lookupExact, h0] at h
        simp [dictDel, h0, ih h]

theorem lookupExact_dictDel_ne (reg : Registry) (k k' : PKey)
    (h : k ≠ k') : lookupExact (dictDel reg k') k = lookupExact reg k := by
  induction reg with
  | nil => simp [dictDel]
  | cons kv rest ih =>
      obtain ⟨k0, v0⟩ := kv
      by_cases h0 : k0 = k'
      · subst h0
        simp [dictDel, lookupExact, Ne.symm h]
      · by_cases h1 : k0 = k
        · simp [dictDel, h0, lookupExact, h1, h]
        · simp [dictDel, h0, lookupExact, h1, ih]

theorem dictSet_dictSet_same (reg : Registry) (k : PKey) (a b : PyFunc) :
    dictSet (dictSet reg k a) k b = dictSet reg k b := by
  induction reg with
  | nil => simp [dictSet]
  | cons kv rest ih =>
      obtain ⟨k0, v0⟩ := kv
      by_cases h0 : k0 = k
      · simp [dictSet, h0]
      · simp [dictSet, h0, ih]

theorem containsKey_dictSet_self (reg : Registry) (k : PKey) (v : PyFunc) :
    containsKey (dictSet reg k v) k = true := by
  simp [containsKey, lookupExact_dictSet_self]

theorem lookupExact_dictUpdate_not_mem (mapping : List (PKey × PyFunc))
    (reg : Registry) (k : PKey) (h : k ∉ mapping.map Prod.fst) :
    lookupExact (dictUpdate reg mapping) k = lookupExact reg k := by
  induction mapping generalizing reg with
  | nil => rfl
  | cons kv rest ih =>
      obtain ⟨k0, v0⟩ := kv
      simp only [List.map_cons, List.mem_cons, not_or] at h
      have : dictUpdate reg ((k0, v0) :: rest) = dictUpdate (dictSet reg k0 v0) rest := rfl
      rw [this, ih (dictSet reg k0 v0) h.2, lookupExact_dictSet_ne _ _ _ _ h.1]

/-! ## Structure of `get_processor`, `__init__` and `__exit__` -/

theorem subtypeScan_eq_find (t : PyType) (reg : Registry) :
    subtypeScan t reg =
      (reg.find? (fun kv => kv.1.isClass && match kv.1 with
        | .ty b => issubclass t b
        | _ => false)).map Prod.snd := by
  induction reg with
  | nil => rfl
  | cons kv rest ih =>
      obtain ⟨k, v⟩ := kv
      cases k with
      | ty b =>
          by_cases hb : issubclass t b
          · simp [subtypeScan, hb, List.find?, PKey.isClass]
          · simp [subtypeScan, hb, List.find?, PKey.isClass, ih]
      | obj n => simpa [subtypeScan, List.find?, PKey.isClass] using ih
      | pynone => simpa [subtypeScan, List.find?, PKey.isClass] using ih

theorem get_processor_eq_lookup_spec (k : PKey) (reg : Registry) :
    get_processor (.key k) reg = .ok (lookup_spec k reg, reg) := by
  by_cases h : containsKey reg k = true
  · simp [get_processor, lookup_spec, h]
  · cases k with
    | ty t => simp [get_processor, lookup_spec, h, subtypeScan_eq_find]
    | obj n => simp [get_processor, lookup_spec, h]
    | pynone => simp [get_processor, lookup_spec, h]

theorem subtypeScan_none_of_nonclass (t : PyType) (reg : Registry)
    (hk : ∀ kv ∈ reg, kv.1.isClass = false) : subtypeScan t reg = none := by
  induction reg with
  | nil => rfl
  | cons kv rest ih =>
      obtain ⟨k, v⟩ := kv
      cases k with
      | ty b =>
          have := hk (.ty b, v) (by simp)
          simp [PKey.isClass] at this
      | obj n =>
          exact ih fun kv hkv => hk kv (List.mem_cons_of_mem _ hkv)
      | pynone =>
          exact ih fun kv hkv => hk kv (List.mem_cons_of_mem _ hkv)

theorem checkAndSnapshot_error_firstColliding (mapping : List (PKey × PyFunc))
    (reg : Registry) (k : PKey) (h : firstColliding reg mapping = some k) :
    checkAndSnapshot reg false mapping = .error (.valueError k) := by
  induction mapping with
  | nil => simp [firstColliding, List.find?] at h
  | cons kv rest ih =>
      obtain ⟨k0, v0⟩ := kv
      by_cases h0 : containsKey reg k0 = true
      · have hk : k0 = k := by
          simp [firstColliding, List.find?, h0] at h
          exact h
        subst hk
        simp [checkAndSnapshot, h0]
      · have h' : firstColliding reg rest = some k := by
          simpa [firstColliding, List.find?, h0] using h
        simp [checkAndSnapshot, h0, ih h']

theorem checkAndSnapshot_ok_keys (mapping : List (PKey × PyFunc))
    (reg : Registry) (c : Bool) (snap : Snapshot)
    (h : checkAndSnapshot reg c mapping = .ok snap) :
    snap.map Prod.fst = mapping.map Prod.fst := by
  induction mapping generalizing snap with
  | nil =>
      simp [checkAndSnapshot] at h
      subst h
      rfl
  | cons kv rest ih =>
      obtain ⟨k0, v0⟩ := kv
      by_cases h0 : (containsKey reg k0 && !c) = true
      · simp [checkAndSnapshot, h0] at h
      · simp only [checkAndSnapshot, if_neg h0] at h
        cases hrec : checkAndSnapshot reg c rest with
        | error e => rw [hrec] at h; exact absurd h (by simp)
        | ok snap' =>
            rw [hrec] at h
            simp at h
            subst h
            simp [ih snap' hrec]

theorem set_processors_exit_nil (reg : Registry) :
    set_processors_exit [] reg = .ok reg := rfl

theorem set_processors_exit_cons (kv : PKey × Option PyFunc) (rest : Snapshot)
    (reg : Registry) :
    set_processors_exit (kv :: rest) reg =
      match exitStep reg kv with
      | .error e => .error e
      | .ok r => set_processors_exit rest r := by
  cases hs : exitStep reg kv with
  | error e =>
      show exitStep reg kv >>= _ = _
      rw [hs]
      rfl
  | ok r =>
      show exitStep reg kv >>= _ = _
      rw [hs]
      rfl

theorem exit_preserves_not_mem (snap : Snapshot) :
    ∀ reg reg'' : Registry, set_processors_exit snap reg = .ok reg'' →
      ∀ k, k ∉ snap.map Prod.fst → lookupExact reg'' k = lookupExact reg k := by
  induction snap with
  | nil =>
      intro reg reg'' h k _
      have h' : reg = reg'' := Except.ok.inj h
      subst h'
      rfl
  | cons kv rest ih =>
      intro reg reg'' h k hk
      obtain ⟨k0, o⟩ := kv
      simp only [List.map_cons, List.mem_cons, not_or] at hk
      rw [set_processors_exit_cons] at h
      cases o with
      | none =>
          by_cases h0 : containsKey reg k0 = true
          · rw [show exitStep reg (k0, none) = .ok (dictDel reg k0) by
              simp [exitStep, h0]] at h
            rw [ih (dictDel reg k0) reg'' h k hk.2,
              lookupExact_dictDel_ne _ _ _ hk.1]
          · rw [show exitStep reg (k0, none) = .error (.keyError k0, reg) by
              simp [exitStep, h0]] at h
            exact absurd h (by simp)
      | some v =>
          rw [show exitStep reg (k0, some v) = .ok (dictSet reg k0 v) from rfl] at h
          rw [ih (dictSet reg k0 v) reg'' h k hk.2,
            lookupExact_dictSet_ne _ _ _ _ hk.1]

/-! ## The claims -/

/-- C1 (counterexample): with only a base class `B` registered and `D` a
subclass of `B` that has no binding of its own, a scoped bind of
`{D: f2}` (clobber true) is entered and exited; afterwards `lookup(D)`
does not return absent — the subtype scan finds `B`'s processor — refuting
the claim's "if T had no binding before the scoped bind, lookup(T) returns
absent after exit". -/
theorem c1_scoped_restore_counterexample :
    lookupExact [(.ty ⟨0, [0]⟩, pf 0)] (.ty ⟨1, [1, 0]⟩) = none ∧
    set_processors_init [(.ty ⟨1, [1, 0]⟩, pf 1)] true [(.ty ⟨0, [0]⟩, pf 0)] =
      .ok ([(.ty ⟨1, [1, 0]⟩, none)],
        [(.ty ⟨0, [0]⟩, pf 0), (.ty ⟨1, [1, 0]⟩, pf 1)]) ∧
    set_processors_exit [(.ty ⟨1, [1, 0]⟩, none)]
      [(.ty ⟨0, [0]⟩, pf 0), (.ty ⟨1, [1, 0]⟩, pf 1)] =
      .ok [(.ty ⟨0, [0]⟩, pf 0)] ∧
    get_processor (.key (.ty ⟨1, [1, 0]⟩)) [(.ty ⟨0, [0]⟩, pf 0)] =
      .ok (some (pf 0), [(.ty ⟨0, [0]⟩, pf 0)]) :=
  ⟨rfl, rfl, rfl, rfl⟩

/-- C1 (amended): for every registry, key `T` and processors `f1`, `f2`, if
`T` is bound to `f1`, the scoped bind of `{T: f2}` (clobber true) makes
`lookup(T)` return `f2` inside the scope, and its exit restores the
registry to exactly its prior state, so `lookup(T)` returns `f1` again; if
`T` had no binding, exit also restores the registry exactly, so the exact
binding of `T` is absent again after exit (and the full `lookup(T)` behaves
as before the scope: absent unless the subtype scan finds a registered
ancestor class). -/
theorem c1_scoped_restore (reg : Registry) (T : PKey) (f1 f2 : PyFunc) :
    (lookupExact reg T = some f1 →
      set_processors_init [(T, f2)] true reg =
        .ok ([(T, some f1)], dictSet reg T f2) ∧
      get_processor (.key T) (dictSet reg T f2) =
        .ok (some f2, dictSet reg T f2) ∧
      set_processors_exit [(T, some f1)] (dictSet reg T f2) = .ok reg ∧
      get_processor (.key T) reg = .ok (some f1, reg)) ∧
    (lookupExact reg T = none →
      set_processors_init [(T, f2)] true reg =
        .ok ([(T, none)], dictSet reg T f2) ∧
      get_processor (.key T) (dictSet reg T f2) =
        .ok (some f2, dictSet reg T f2) ∧
      set_processors_exit [(T, none)] (dictSet reg T f2) = .ok reg) := by
  constructor
  · intro h
    refine ⟨?_, ?_, ?_, ?_⟩
    · simp [set_processors_init, checkAndSnapshot, h, dictUpdate]
    · simp [get_processor, containsKey_dictSet_self, lookupExact_dictSet_self]
    · rw [set_processors_exit_cons,
        show exitStep (dictSet reg T f2) (T, some f1) =
          .ok (dictSet (dictSet reg T f2) T f1) from rfl,
        dictSet_dictSet_same, dictSet_lookup_eq reg T f1 h]
      rfl
    · have hc : containsKey reg T = true := by simp [containsKey, h]
      simp [get_processor, hc, h]
  · intro h
    refine ⟨?_, ?_, ?_⟩
    · simp [set_processors_init, checkAndSnapshot, h, dictUpdate]
    · simp [get_processor, containsKey_dictSet_self, lookupExact_dictSet_self]
    · rw [set_processors_exit_cons,
        show exitStep (dictSet reg T f2) (T, none) =
          if containsKey (dictSet reg T f2) T then
            .ok (dictDel (dictSet reg T f2) T)
          else .error (.keyError T, dictSet reg T f2) from rfl,
        containsKey_dictSet_self, if_pos rfl, dictSet_absent reg T f2 h,
        dictDel_append_absent reg T f2 h]
      rfl

/-- C1 (witness for the amended theorem), at a one-entry registry. -/
theorem c1_scoped_restore_witness :
    lookupExact [(.obj 6, pf 1)] (.obj 6) = some (pf 1) ∧
    (set_processors_init [(.obj 6, pf 2)] true [(.obj 6, pf 1)] =
        .ok ([(.obj 6, some (pf 1))], [(.obj 6, pf 2)]) ∧
      get_processor (.key (.obj 6)) [(.obj 6, pf 2)] =
        .ok (some (pf 2), [(.obj 6, pf 2)]) ∧
      set_processors_exit [(.obj 6, some (pf 1))] [(.obj 6, pf 2)] =
        .ok [(.obj 6, pf 1)] ∧
      get_processor (.key (.obj 6)) [(.obj 6, pf 1)] =
        .ok (some (pf 1), [(.obj 6, pf 1)])) :=
  ⟨by decide,
    (c1_scoped_restore [(.obj 6, pf 1)] (.obj 6) (pf 1) (pf 2)).1 (by decide)⟩

/-- C2: for a key `T` bound to `f1`, a non-clobbering bind of `{T: f2}`
raises the collision `ValueError` naming `T` and leaves the registry
unchanged, so `lookup(T)` still returns `f1`; a clobbering bind succeeds
and `lookup(T)` then returns `f2`. -/
theorem c2_collision_law (reg : Registry) (T : PKey) (f1 f2 : PyFunc)
    (h : lookupExact reg T = some f1) :
    set_processors_init [(T, f2)] false reg = .error (.valueError T, reg) ∧
    get_processor (.key T) reg = .ok (some f1, reg) ∧
    set_processors_init [(T, f2)] true reg =
      .ok ([(T, some f1)], dictSet reg T f2) ∧
    get_processor (.key T) (dictSet reg T f2) =
      .ok (some f2, dictSet reg T f2) := by
  have hc : containsKey reg T = true := by simp [containsKey, h]
  refine ⟨?_, ?_, ?_, ?_⟩
  · simp [set_processors_init, checkAndSnapshot, hc]
  · simp [get_processor, hc, h]
  · simp [set_processors_init, checkAndSnapshot, h, dictUpdate]
  · simp [get_processor, containsKey_dictSet_self, lookupExact_dictSet_self]

/-- C2 (witness), at a one-entry registry. -/
theorem c2_collision_law_witness :
    lookupExact [(.obj 5, pf 1)] (.obj 5) = some (pf 1) ∧
    (set_processors_init [(.obj 5, pf 2)] false [(.obj 5, pf 1)] =
        .error (.valueError (.obj 5), [(.obj 5, pf 1)]) ∧
      get_processor (.key (.obj 5)) [(.obj 5, pf 1)] =
        .ok (some (pf 1), [(.obj 5, pf 1)]) ∧
      set_processors_init [(.obj 5, pf 2)] true [(.obj 5, pf 1)] =
        .ok ([(.obj 5, some (pf 1))], [(.obj 5, pf 2)]) ∧
      get_processor (.key (.obj 5)) [(.obj 5, pf 2)] =
        .ok (some (pf 2), [(.obj 5, pf 2)])) :=
  ⟨by decide, c2_collision_law [(.obj 5, pf 1)] (.obj 5) (pf 1) (pf 2) (by decide)⟩

/-- C3: `get_processor` follows the three-step lookup algorithm of the
spec — exact match first, else (for a class query) the first registered
class key the query is a subclass of, in storage order, else absent — and
leaves the registry unchanged. -/
theorem c3_lookup_algorithm (T : PKey) (reg : Registry) :
    get_processor (.key T) reg = .ok (lookup_spec T reg, reg) :=
  get_processor_eq_lookup_spec T reg

/-- C4 (counterexample): the batch `{k1: f, k2: g}` with only `k2` already
registered fails with the collision error, but `k1` — processed before the
failure — is NOT applied: the registry the error leaves behind is the
original one, without `k1`, refuting "leaves all the non-colliding keys
processed before the failure applied". -/
theorem c4_batch_counterexample :
    set_processors_init [(.obj 1, pf 1), (.obj 2, pf 2)] false
        [(.obj 2, pf 0)] =
      .error (.valueError (.obj 2), [(.obj 2, pf 0)]) ∧
    lookupExact [(.obj 2, pf 0)] (.obj 1) = none :=
  ⟨rfl, rfl⟩

/-- C4 (amended): a non-clobbering bind of a batch containing an
already-registered key fails with the collision error naming the first
such key in iteration order, and NO bindings from the batch are applied —
the collision check over the whole batch completes before the update runs,
so the non-colliding keys processed before the failure are not applied
either. -/
theorem c4_batch_collision (mapping : List (PKey × PyFunc)) (reg : Registry)
    (k : PKey) (h : firstColliding reg mapping = some k) :
    set_processors_init mapping false reg = .error (.valueError k, reg) := by
  simp [set_processors_init,
    checkAndSnapshot_error_firstColliding mapping reg k h]

/-- C4 (witness for the amended theorem). -/
theorem c4_batch_collision_witness :
    firstColliding [(.obj 3, pf 0)] [(.obj 4, pf 1), (.obj 3, pf 2)] =
      some (.obj 3) ∧
    set_processors_init [(.obj 4, pf 1), (.obj 3, pf 2)] false
        [(.obj 3, pf 0)] =
      .error (.valueError (.obj 3), [(.obj 3, pf 0)]) :=
  ⟨by decide,
    c4_batch_collision [(.obj 4, pf 1), (.obj 3, pf 2)] [(.obj 3, pf 0)]
      (.obj 3) (by decide)⟩

/-- C5: when a function's hints, after dropping the return annotation,
start with an annotated parameter whose type `k` is not `None`, the
decorator registers `{k: func}` non-clobberingly — adding the binding when
`k` is free, raising the collision error when `k` is already registered —
and returns the original function object. -/
theorem c5_decorator_registration (func : PyFunc) (reg : Registry)
    (nm : String) (k : PKey) (rest : List (String × Option PKey))
    (h : popReturn func.hints = (nm, some k) :: rest) :
    (containsKey reg k = false →
      processor func reg = .ok (dictSet reg k func, func, false)) ∧
    (containsKey reg k = true →
      processor func reg = .error (.valueError k, reg)) := by
  constructor
  · intro hc
    simp [processor, h, set_processors_init, checkAndSnapshot, hc, dictUpdate]
  · intro hc
    simp [processor, h, set_processors_init, checkAndSnapshot, hc]

/-- C5 (witness): decorating a one-parameter function on an empty registry
registers it under its parameter's annotation and returns it. -/
theorem c5_decorator_registration_witness :
    popReturn (PyFunc.mk 5 [("x", some (.obj 4))]).hints =
      [("x", some (.obj 4))] ∧
    containsKey [] (.obj 4) = false ∧
    processor (PyFunc.mk 5 [("x", some (.obj 4))]) [] =
      .ok ([(.obj 4, PyFunc.mk 5 [("x", some (.obj 4))])],
        PyFunc.mk 5 [("x", some (.obj 4))], false) :=
  ⟨by decide, by decide,
    (c5_decorator_registration (PyFunc.mk 5 [("x", some (.obj 4))]) []
      "x" (.obj 4) [] (by decide)).1 (by decide)⟩

/-- C6: decorating a function with no hints, or with only a return
annotation, emits the warning, returns the function, and leaves the
registry untouched. -/
theorem c6_decorator_skip (func : PyFunc) (reg : Registry)
    (h : func.hints = [] ∨ ∃ a, func.hints = [("return", a)]) :
    processor func reg = .ok (reg, func, true) := by
  rcases h with h | ⟨a, h⟩
  · simp [processor, popReturn, h]
  · have hp : popReturn func.hints = [] := by
      rw [h]
      rfl
    simp [processor, hp]

/-- C6 (witness): a function annotated only on its return type is
skipped with a warning. -/
theorem c6_decorator_skip_witness :
    ((PyFunc.mk 6 [("return", some (.obj 7))]).hints = [] ∨
      ∃ a, (PyFunc.mk 6 [("return", some (.obj 7))]).hints = [("return", a)]) ∧
    processor (PyFunc.mk 6 [("return", some (.obj 7))]) [] =
      .ok ([], PyFunc.mk 6 [("return", some (.obj 7))], true) :=
  ⟨Or.inr ⟨some (.obj 7), rfl⟩,
    c6_decorator_skip (PyFunc.mk 6 [("return", some (.obj 7))]) []
      (Or.inr ⟨some (.obj 7), rfl⟩)⟩

/-- C7 (counterexample): calling lookup with an unhashable query value
raises `TypeError` from the membership test even on the empty registry,
refuting "calling lookup with None or with a non-hashable query value does
not raise an exception". -/
theorem c7_bad_query_counterexample :
    get_processor (.unhashable 0) [] = .error (.typeError, []) := rfl

/-- C7 (amended): lookup with `None` never raises — when `None` is not a
registered key the membership test reports not-found and, `None` not being
a class, no subtype scan applies, so lookup returns absent; when `None` is
a registered key its processor is returned.  Lookup with a non-hashable
query value raises `TypeError` from the exact-match membership test,
leaving the registry unchanged. -/
theorem c7_bad_query (reg : Registry) :
    (containsKey reg .pynone = false →
      get_processor (.key .pynone) reg = .ok (none, reg)) ∧
    (∀ f, lookupExact reg .pynone = some f →
      get_processor (.key .pynone) reg = .ok (some f, reg)) ∧
    (∀ n, get_processor (.unhashable n) reg = .error (.typeError, reg)) := by
  refine ⟨?_, ?_, fun n => rfl⟩
  · intro hc
    simp [get_processor, hc]
  · intro f hf
    have hc : containsKey reg .pynone = true := by simp [containsKey, hf]
    simp [get_processor, hc, hf]

/-- C7 (witness for the amended theorem). -/
theorem c7_bad_query_witness :
    containsKey [(.obj 2, pf 3)] .pynone = false ∧
    get_processor (.key .pynone) [(.obj 2, pf 3)] =
      .ok (none, [(.obj 2, pf 3)]) ∧
    get_processor (.unhashable 1) [(.obj 2, pf 3)] =
      .error (.typeError, [(.obj 2, pf 3)]) :=
  ⟨by decide, (c7_bad_query [(.obj 2, pf 3)]).1 (by decide),
    (c7_bad_query [(.obj 2, pf 3)]).2.2 1⟩

/-- C8: lookup of any hashable key always succeeds and returns the
registry unchanged (so repeated calls agree), and on a miss — when the
spec-side algorithm finds nothing — it returns the explicit absent result,
not an exception. -/
theorem c8_lookup_readonly_total (reg : Registry) (k : PKey) :
    (∃ r, get_processor (.key k) reg = .ok (r, reg)) ∧
    (lookup_spec k reg = none →
      get_processor (.key k) reg = .ok (none, reg)) := by
  constructor
  · exact ⟨lookup_spec k reg, get_processor_eq_lookup_spec k reg⟩
  · intro h
    rw [get_processor_eq_lookup_spec, h]

/-- C8 (witness): a miss on the empty registry returns absent. -/
theorem c8_lookup_readonly_total_witness :
    lookup_spec (.obj 0) [] = none ∧
    get_processor (.key (.obj 0)) [] = .ok (none, []) :=
  ⟨rfl, (c8_lookup_readonly_total [] (.obj 0)).2 rfl⟩

/-- C9: in a registry whose keys are all non-classes, lookup of a class
query that is not an exact key returns absent without crashing — the
subtype scan skips non-class keys — while such keys are still found by
exact match. -/
theorem c9_nonclass_keys (reg : Registry)
    (hk : ∀ kv ∈ reg, kv.1.isClass = false) :
    (∀ t : PyType, containsKey reg (.ty t) = false →
      get_processor (.key (.ty t)) reg = .ok (none, reg)) ∧
    (∀ n f, lookupExact reg (.obj n) = some f →
      get_processor (.key (.obj n)) reg = .ok (some f, reg)) := by
  constructor
  · intro t hc
    simp [get_processor, hc, subtypeScan_none_of_nonclass t reg hk]
  · intro n f hf
    have hc : containsKey reg (.obj n) = true := by simp [containsKey, hf]
    simp [get_processor, hc, hf]

/-- C9 (witness): a registry holding only a sentinel key. -/
theorem c9_nonclass_keys_witness :
    get_processor (.key (.ty ⟨0, [0]⟩)) [(.obj 1, pf 0)] =
      .ok (none, [(.obj 1, pf 0)]) ∧
    get_processor (.key (.obj 1)) [(.obj 1, pf 0)] =
      .ok (some (pf 0), [(.obj 1, pf 0)]) :=
  ⟨(c9_nonclass_keys [(.obj 1, pf 0)] (by decide)).1 ⟨0, [0]⟩ (by decide),
    (c9_nonclass_keys [(.obj 1, pf 0)] (by decide)).2 1 (pf 0) (by decide)⟩

/-- C10: a successful `set_processors` application changes no binding of a
key outside the mapping, and neither does a successful exit of the
snapshot it produced; applying and reversing the empty mapping is a
complete no-op on the registry and raises nothing. -/
theorem c10_frame (mapping : List (PKey × PyFunc)) (clobber : Bool)
    (reg : Registry) :
    (∀ snap reg',
      set_processors_init mapping clobber reg = .ok (snap, reg') →
      (∀ k, k ∉ mapping.map Prod.fst →
        lookupExact reg' k = lookupExact reg k) ∧
      (∀ reg'', set_processors_exit snap reg' = .ok reg'' →
        ∀ k, k ∉ mapping.map Prod.fst →
          lookupExact reg'' k = lookupExact reg k)) ∧
    (set_processors_init [] clobber reg = .ok ([], reg) ∧
      set_processors_exit [] reg = .ok reg) := by
  refine ⟨?_, rfl, rfl⟩
  intro snap reg' h
  cases hcs : checkAndSnapshot reg clobber mapping with
  | error e => simp [set_processors_init, hcs] at h
  | ok snap0 =>
      simp only [set_processors_init, hcs] at h
      obtain ⟨h1, h2⟩ := Prod.mk.injEq .. ▸ Except.ok.inj h
      subst h1
      subst h2
      constructor
      · intro k hk
        exact lookupExact_dictUpdate_not_mem _ _ _ hk
      · intro reg'' hex k hk
        have hkeys := checkAndSnapshot_ok_keys mapping reg clobber snap0 hcs
        have hk0 : k ∉ snap0.map Prod.fst := by
          rw [hkeys]
          exact hk
        rw [exit_preserves_not_mem snap0 _ _ hex k hk0,
          lookupExact_dictUpdate_not_mem _ _ _ hk]

/-- C10 (witness): binding a fresh key preserves the binding of another
key, through apply and through exit. -/
theorem c10_frame_witness :
    set_processors_init [(.obj 8, pf 1)] false [(.obj 9, pf 2)] =
      .ok ([(.obj 8, none)], [(.obj 9, pf 2), (.obj 8, pf 1)]) ∧
    lookupExact [(.obj 9, pf 2), (.obj 8, pf 1)] (.obj 9) =
      lookupExact [(.obj 9, pf 2)] (.obj 9) :=
  ⟨rfl,
    ((c10_frame [(.obj 8, pf 1)] false [(.obj 9, pf 2)]).1
      [(.obj 8, none)] [(.obj 9, pf 2), (.obj 8, pf 1)] rfl).1
      (.obj 9) (by decide)⟩

end InNOut
